import Mathlib

/-!
Verification of the FastEdge Rust SDK boundary-marshalling layer.

Rust values are embedded as follows: byte buffers (`Vec<u8>`, `&[u8]`) become
`List Nat` whose elements are byte values; Rust `String`s whose byte-level
content matters (header values, bodies, wire data) are also embedded as their
UTF-8 byte lists, while strings used only as opaque labels (header names, URIs,
content types, error messages) are embedded as Lean `String`.  Fallible Rust
code returns `Except`/`Option`; a Rust panic (`unwrap`/`assert!`/`panic!`) is
embedded as an `Option` result of `none`.  Machine integers are `Nat` with
explicit truncation (`% 2 ^ 32`) where the source casts.
-/

namespace FastEdge

/-! ## Wire value codec (src/helper.rs) -/

/-- Little-endian 4-byte encoding of a 32-bit value, as produced by the Rust
expression written in the source as a cast of a length to i32 followed by a
call producing its little-endian bytes.  For an argument below `2 ^ 32` this
is exact; larger arguments are truncated, matching the cast. -/
def toLeBytes4 (n : Nat) : List Nat :=
  [n % 256, n / 256 % 256, n / 65536 % 256, n / 16777216 % 256]

/-- Reassemble a 32-bit value from four little-endian bytes, as done by
u32::from_le_bytes in the source. -/
def fromLeBytes4 (b0 b1 b2 b3 : Nat) : Nat :=
  b0 + 256 * b1 + 65536 * b2 + 16777216 * b3

/-- Read the little-endian u32 at offset `i` of `bytes`, as done by
u32::from_le_bytes applied to the 4-byte slice of bytes at offsets
i to i+3.  Out-of-range reads default to 0; the callers below assert
bounds before reading, exactly as the source does. -/
def readU32 (bytes : List Nat) (i : Nat) : Nat :=
  match bytes.drop i with
  | b0 :: b1 :: b2 :: b3 :: _ => fromLeBytes4 b0 b1 b2 b3
  | _ => 0

/-- Embedding of serialize_list (src/helper.rs, test module): a 4-byte
little-endian item count, then one 4-byte little-endian length per item,
then each payload followed by a single 0 separator byte. -/
def serialize_list (list : List (List Nat)) : List Nat :=
  toLeBytes4 list.length
    ++ (list.map fun v => toLeBytes4 v.length).flatten
    ++ (list.map fun v => v ++ [0]).flatten

/-- The item loop of deserialize_list (src/helper.rs lines 29-37): `k` items
remain, `n` is the current item index, `p` the current payload offset.  The
two `assert!` calls of the source are embedded as bounds checks returning
`none` (a panic) when they fail. -/
def deserializeItems (bytes : List Nat) : Nat → Nat → Nat → Option (List (List Nat))
  | 0, _, _ => some []
  | k + 1, n, p =>
    let s := 4 + n * 4
    if bytes.length > s + 4 then
      let sz := readU32 bytes s
      if bytes.length > p + sz then
        match deserializeItems bytes k (n + 1) (p + sz + 1) with
        | some rest => some ((bytes.drop p).take sz :: rest)
        | none => none
      else none
    else none

/-- Embedding of deserialize_list (src/helper.rs lines 22-39).  Input shorter
than 4 bytes yields an empty list; otherwise the u32 item count is read at
offset 0 and the payload region starts at `4 + count * 4`.  `none` embeds an
assertion failure (panic) of the source. -/
def deserialize_list (bytes : List Nat) : Option (List (List Nat)) :=
  if bytes.length < 4 then some []
  else deserializeItems bytes (readU32 bytes 0) 0 (4 + readU32 bytes 0 * 4)

theorem readU32_cons4 (b0 b1 b2 b3 : Nat) (rest : List Nat) :
    readU32 (b0 :: b1 :: b2 :: b3 :: rest) 0 = fromLeBytes4 b0 b1 b2 b3 := rfl

theorem readU32_toLeBytes4 (n : Nat) (rest : List Nat) (h : n < 2 ^ 32) :
    readU32 (toLeBytes4 n ++ rest) 0 = n := by
  show readU32 (n % 256 :: n / 256 % 256 :: n / 65536 % 256 :: n / 16777216 % 256 :: rest) 0 = n
  rw [readU32_cons4]
  unfold fromLeBytes4
  omega

theorem readU32_append (a b : List Nat) (i : Nat) :
    readU32 (a ++ b) (a.length + i) = readU32 b i := by
  unfold readU32
  rw [List.drop_append]

/-- Reading the i-th length field of the serialized length region recovers the
length of the i-th item. -/
theorem readU32_lengthFields (xs : List (List Nat)) (P : List Nat) (i : Nat)
    (hi : i < xs.length) (hlen : ∀ x ∈ xs, x.length < 2 ^ 32) :
    readU32 ((xs.map fun v => toLeBytes4 v.length).flatten ++ P) (i * 4)
      = (xs.getD i []).length := by
  induction xs generalizing i P with
  | nil => exact absurd hi (Nat.not_lt_zero i)
  | cons x xs ih =>
    cases i with
    | zero =>
      simp only [List.map_cons, List.flatten_cons, List.append_assoc, Nat.zero_mul,
        List.getD_cons_zero]
      exact readU32_toLeBytes4 x.length _ (hlen x (List.mem_cons_self x xs))
    | succ i =>
      simp only [List.map_cons, List.flatten_cons, List.append_assoc, List.getD_cons_succ]
      have harith : (i + 1) * 4 = (toLeBytes4 x.length).length + i * 4 := by
        simp [toLeBytes4]; omega
      rw [harith, readU32_append]
      exact ih _ i (Nat.lt_of_succ_lt_succ hi)
        (fun z hz => hlen z (List.mem_cons_of_mem x hz))

/-- Invariant of the deserialize_list item loop: if the length fields at index
`n` onward describe `ys` and the payload region at offset `p` is exactly the
separator-terminated payloads of `ys`, the loop reconstructs `ys`. -/
theorem deserializeItems_spec (bytes : List Nat) (ys : List (List Nat)) (n p : Nat)
    (hfields : ∀ i, i < ys.length →
      readU32 bytes (4 + (n + i) * 4) = (ys.getD i []).length)
    (hblen : bytes.length = p + ((ys.map fun v => v ++ [0]).flatten).length)
    (hsp : 4 + (n + ys.length) * 4 ≤ p)
    (hdrop : bytes.drop p = (ys.map fun v => v ++ [0]).flatten) :
    deserializeItems bytes ys.length n p = some ys := by
  induction ys generalizing n p with
  | nil => rfl
  | cons y ys ih =>
    have hys0 := hfields 0 (Nat.succ_pos ys.length)
    simp only [Nat.add_zero, List.getD_cons_zero] at hys0
    have hflat : ((y :: ys).map fun v => v ++ [0]).flatten
        = (y ++ [0]) ++ (ys.map fun v => v ++ [0]).flatten := by
      simp
    rw [hflat] at hblen hdrop
    simp only [List.length_append, List.length_cons, List.length_nil] at hblen
    simp only [List.length_cons] at hsp
    have hc1 : bytes.length > 4 + n * 4 + 4 := by omega
    have hc2 : bytes.length > p + y.length := by omega
    have hrec : deserializeItems bytes ys.length (n + 1) (p + y.length + 1) = some ys := by
      apply ih
      · intro i hi
        have h := hfields (i + 1) (Nat.succ_lt_succ hi)
        have harith : 4 + (n + (i + 1)) * 4 = 4 + (n + 1 + i) * 4 := by omega
        rw [harith] at h
        simpa using h
      · omega
      · omega
      · have : bytes.drop (p + (y.length + 1))
            = (ys.map fun v => v ++ [0]).flatten := by
          rw [← List.drop_drop, hdrop]
          have hl : y.length + 1 = (y ++ [0]).length := by simp
          rw [hl, List.drop_left]
        simpa [Nat.add_assoc] using this
    have htake : (bytes.drop p).take y.length = y := by
      rw [hdrop, List.append_assoc, List.take_left]
    show deserializeItems bytes (ys.length + 1) n p = some (y :: ys)
    rw [deserializeItems]
    simp only [hys0, hrec, if_pos hc1, if_pos hc2, htake]

/-- Total length of the serialized length region is four bytes per item. -/
theorem lengthFields_length (xs : List (List Nat)) :
    ((xs.map fun v => toLeBytes4 v.length).flatten).length = xs.length * 4 := by
  induction xs with
  | nil => rfl
  | cons x xs ih =>
    simp only [List.map_cons, List.flatten_cons, List.length_append, ih, List.length_cons]
    simp [toLeBytes4]
    omega

/-- C1: wire-list round-trip.  Serializing any list of byte strings with the
count-prefixed / length-prefixed layout and decoding it with deserialize_list
yields exactly the original list, in order.  The two numeric hypotheses state
that the item count and each item length fit in 32 bits, which is forced by
the types of the source (lengths are usize, 32-bit on the wasm32 target, and
are written to the wire as 4-byte little-endian fields). -/
theorem wire_list_roundtrip (xs : List (List Nat))
    (hN : xs.length < 2 ^ 32) (hx : ∀ x ∈ xs, x.length < 2 ^ 32) :
    deserialize_list (serialize_list xs) = some xs := by
  have hLlen := lengthFields_length xs
  have hblen : (serialize_list xs).length
      = (4 + xs.length * 4) + ((xs.map fun v => v ++ [0]).flatten).length := by
    simp only [serialize_list, List.length_append, hLlen]
    simp [toLeBytes4]
  have hcount : readU32 (serialize_list xs) 0 = xs.length := by
    rw [serialize_list, List.append_assoc]
    exact readU32_toLeBytes4 xs.length _ hN
  have hdrop : (serialize_list xs).drop (4 + xs.length * 4)
      = (xs.map fun v => v ++ [0]).flatten := by
    have hpre : (toLeBytes4 xs.length
        ++ (xs.map fun v => toLeBytes4 v.length).flatten).length
        = 4 + xs.length * 4 := by
      simp only [List.length_append, hLlen]
      simp [toLeBytes4]
    rw [serialize_list, ← hpre, List.drop_left]
  rw [deserialize_list, if_neg (by omega), hcount]
  apply deserializeItems_spec
  · intro i hi
    have harith : 4 + (0 + i) * 4
        = (toLeBytes4 xs.length).length + i * 4 := by
      simp [toLeBytes4]
    rw [serialize_list, List.append_assoc, harith, readU32_append]
    exact readU32_lengthFields xs _ i hi hx
  · exact hblen
  · omega
  · exact hdrop

example : deserialize_list (serialize_list [[1, 2], [], [0, 7]]) =
    some [[1, 2], [], [0, 7]] := by decide

example : deserialize_list (serialize_list []) = some [] := by decide

/-- C1 witness: the round-trip theorem applied at a concrete list containing
an empty string and a string with a zero byte. -/
theorem wire_list_roundtrip_witness :
    ([[104, 105], [], [0]] : List (List Nat)).length < 2 ^ 32
    ∧ (∀ x ∈ ([[104, 105], [], [0]] : List (List Nat)), x.length < 2 ^ 32)
    ∧ deserialize_list (serialize_list [[104, 105], [], [0]])
      = some [[104, 105], [], [0]] :=
  ⟨by decide, by decide, wire_list_roundtrip _ (by decide) (by decide)⟩

/-! ## HTTP type bridge: methods, errors, bodies

Embedding of the ergonomic types of the http crate and the host-shape
records generated from the interface description. -/

/-- The ergonomic method type ::http::Method.  The http crate's standard
methods beyond the SDK-supported seven are represented by CONNECT and TRACE;
they behave identically to any other unsupported method in the conversions
below. -/
inductive HttpMethod where
  | GET | POST | PUT | DELETE | HEAD | PATCH | OPTIONS | CONNECT | TRACE
deriving DecidableEq, Repr

/-- The host-shape method enum gcore:fastedge http Method (wit). -/
inductive Method where
  | Get | Post | Put | Delete | Head | Patch | Options
deriving DecidableEq, Repr

/-- The fastedge::Error taxonomy (src/lib.rs lines 382-401); the payloads the
claims inspect are kept, the wrapped foreign error details are not. -/
inductive Error where
  | UnsupportedMethod (m : HttpMethod)
  | BindgenHttpError
  | HttpError
  | InvalidBody
  | InvalidStatusCode (code : Nat)
deriving DecidableEq, Repr

/-- fastedge body::Body (src/lib.rs lines 449-453): an owned byte buffer with
a content-type label. -/
structure Body where
  content_type : String
  inner : List Nat
deriving DecidableEq, Repr

/-- Body::default (src/lib.rs lines 510-517): empty bytes, text/plain label. -/
def Body.default : Body := ⟨ "text/plain; charset=utf-8", []⟩

/-- Body::empty (src/lib.rs lines 530-532). -/
def Body.empty : Body := Body.default

/-- From<Vec<u8>> for Body (src/lib.rs lines 481-488). -/
def Body.fromVec (b : List Nat) : Body := ⟨ "application/octet-stream", b⟩

/-- Host-shape request record gcore:fastedge http Request: string method tag,
URI, header pairs, optional byte body.  Header values are embedded as byte
lists (Rust strings are UTF-8 byte vectors and header validity is
byte-level). -/
structure Request where
  method : Method
  uri : String
  headers : List (String × List Nat)
  body : Option (List Nat)
deriving DecidableEq, Repr

/-- Host-shape response record gcore:fastedge http Response: u16 status,
optional header pairs (absent is distinct from empty), optional byte body. -/
structure Response where
  status : Nat
  headers : Option (List (String × List Nat))
  body : Option (List Nat)
deriving DecidableEq, Repr

/-- Ergonomic request ::http::Request of Body: the parts the conversions
touch.  The header list is the iteration order of the http crate header map,
which yields name/value pairs in order with duplicates. -/
structure HttpRequest where
  method : HttpMethod
  uri : String
  headers : List (String × List Nat)
  body : Body
deriving DecidableEq, Repr

/-- Ergonomic response ::http::Response of Body. -/
structure HttpResponse where
  status : Nat
  headers : List (String × List Nat)
  body : Body
deriving DecidableEq, Repr

/-- Request parts (http::request::Parts): an HttpRequest without its body. -/
structure Parts where
  method : HttpMethod
  uri : String
  headers : List (String × List Nat)
deriving DecidableEq, Repr

/-! ### Validity predicates of the http crate

These model the byte-level checks the http crate performs when the SDK
conversions feed host strings into the builder, and when header values are
read back out with to_str. -/

/-- Bytes of the token characters a header name may contain besides
alphanumerics (the http crate HeaderName charset). -/
def tokenExtraBytes : List Nat :=
  [33, 35, 36, 37, 38, 39, 42, 43, 45, 46, 94, 95, 96, 124, 126]

/-- A character allowed in a header name. -/
def validHeaderNameChar (c : Char) : Bool :=
  c.isLower || c.isUpper || c.isDigit || tokenExtraBytes.contains c.toNat

/-- HeaderName construction succeeds: nonempty, token characters only. -/
def validHeaderName (s : String) : Bool :=
  s.length != 0 && s.toList.all validHeaderNameChar

/-- A byte allowed in a header value built from a string (the http crate
HeaderValue charset: tab, or 32..255 except 127). -/
def validHeaderValueByte (b : Nat) : Bool :=
  b == 9 || (32 ≤ b && b != 127 && b < 256)

/-- HeaderValue construction from a host string succeeds. -/
def validHeaderValue (v : List Nat) : Bool :=
  v.all validHeaderValueByte

/-- HeaderValue::to_str of the http crate: succeeds exactly when every byte is
visible ASCII or tab (9 or 32..126), returning a view of the same bytes;
otherwise the Err that both guest-to-host conversion sites unwrap. -/
def headerValueToStr (v : List Nat) : Option (List Nat) :=
  if v.all (fun b => b == 9 || (32 ≤ b && b ≤ 126)) then some v else none

/-- Byte codes of the RFC 3986 component characters beyond alphanumerics. -/
def uriExtraBytes : List Nat :=
  [33, 35, 36, 37, 38, 40, 41, 42, 43, 44, 45, 46, 47, 58, 59, 61, 63, 64,
    91, 93, 95, 126]

/-- Characters accepted by the http crate Uri parser, modelled as a charset
check over the RFC 3986 component characters (a conservative model of
builder.uri; no claim depends on the exact URI grammar). -/
def validUriChar (c : Char) : Bool :=
  c.isAlphanum || uriExtraBytes.contains c.toNat

/-- Uri parsing succeeds: nonempty, accepted characters only. -/
def validUri (s : String) : Bool :=
  s.length != 0 && s.toList.all validUriChar

/-- http::StatusCode::from_u16 of the http crate accepts any code in
100..=999 (and only those); this is what TryFrom of a u16 status calls. -/
def statusCodeOk (status : Nat) : Bool :=
  100 ≤ status && status ≤ 999

/-! ### Method conversions -/

/-- From Method for ::http::Method (src/lib.rs lines 555-567; the older
generation at fastedge-rust-sdk/src/lib.rs lines 140-152 is identical). -/
def methodFromHost : Method → HttpMethod
  | .Get => .GET
  | .Post => .POST
  | .Put => .PUT
  | .Delete => .DELETE
  | .Head => .HEAD
  | .Patch => .PATCH
  | .Options => .OPTIONS

/-- to_http_client_method (src/http_client.rs lines 130-141): seven supported
arms, everything else is UnsupportedMethod carrying the rejected method. -/
def to_http_client_method : HttpMethod → Except Error Method
  | .GET => .ok .Get
  | .POST => .ok .Post
  | .PUT => .ok .Put
  | .DELETE => .ok .Delete
  | .HEAD => .ok .Head
  | .PATCH => .ok .Patch
  | .OPTIONS => .ok .Options
  | m => .error (.UnsupportedMethod m)

/-- to_http_client_method of the older SDK generation
(fastedge-rust-sdk/src/http_client.rs lines 63-73): the OPTIONS arm is
absent, so OPTIONS falls to the catch-all and is rejected. -/
def to_http_client_method_old : HttpMethod → Except Error Method
  | .GET => .ok .Get
  | .POST => .ok .Post
  | .PUT => .ok .Put
  | .DELETE => .ok .Delete
  | .HEAD => .ok .Head
  | .PATCH => .ok .Patch
  | m => .error (.UnsupportedMethod m)

/-! ### Host shape to ergonomic shape -/

/-- TryFrom Request for ::http::Request of Body (src/lib.rs lines 569-584).
The builder accumulates header/URI errors, which surface as InvalidBody at
the final body call; the body is the optional host body, mapped to an empty
Body when absent.  Header names are lowercased when stored, as the http
crate header map does. -/
def tryFromRequest (req : Request) : Except Error HttpRequest :=
  if validUri req.uri
      && req.headers.all (fun p => validHeaderName p.1 && validHeaderValue p.2) then
    .ok { method := methodFromHost req.method
          uri := req.uri
          headers := req.headers.map (fun p => (p.1.toLower, p.2))
          body := req.body.elim Body.empty Body.fromVec }
  else .error .InvalidBody

/-- TryFrom Response for ::http::Response of Body (src/lib.rs lines 610-629).
The status is validated first through http::StatusCode, with failure mapped
to InvalidStatusCode carrying the raw value; header errors then surface as
InvalidBody; an absent header list leaves the builder untouched (empty map);
an absent body becomes the empty Body. -/
def tryFromResponse (res : Response) : Except Error HttpResponse :=
  if ¬ statusCodeOk res.status then .error (.InvalidStatusCode res.status)
  else if (res.headers.getD []).all
      (fun p => validHeaderName p.1 && validHeaderValue p.2) then
    .ok { status := res.status
          headers := (res.headers.getD []).map (fun p => (p.1.toLower, p.2))
          body := res.body.elim Body.empty Body.fromVec }
  else .error .InvalidBody

/-- translate_http_client_to_response (src/http_client.rs lines 87-102).
Unlike TryFrom of Response, the status is fed to the builder directly, so an
invalid status surfaces as the generic InvalidBody build error; an absent
body becomes Body::default. -/
def translate_http_client_to_response (res : Response) : Except Error HttpResponse :=
  if statusCodeOk res.status
      && (res.headers.getD []).all
        (fun p => validHeaderName p.1 && validHeaderValue p.2) then
    .ok { status := res.status
          headers := (res.headers.getD []).map (fun p => (p.1.toLower, p.2))
          body := (res.body.map Body.fromVec).getD Body.default }
  else .error .InvalidBody

/-! ### Ergonomic shape to host shape -/

/-- From ::http::Response of Body for Response (src/lib.rs lines 586-608).
A nonempty header map is converted with value.to_str().unwrap(): the unwrap
panics (embedded as none) when any header value is not visible ASCII.  An
empty header map collapses to an absent header list.  The body is always
present. -/
def responseFromHttp (res : HttpResponse) : Option Response :=
  match res.headers.mapM (fun p => (headerValueToStr p.2).map (fun s => (p.1, s))) with
  | none => none
  | some hs =>
    some { status := res.status
           headers := if res.headers.isEmpty then none else some hs
           body := some res.body.inner }

/-- TryFrom of (Parts, Body) for the outbound host request record
(src/http_client.rs lines 104-128; the older generation at
fastedge-rust-sdk/src/http_client.rs lines 37-61 is identical except for the
method table).  The method is converted first (the question-mark operator),
then each header value goes through to_str().unwrap(), which panics
(embedded as none) on a non visible ASCII value; the body is always Some. -/
def requestToHostClient (parts : Parts) (body : Body) : Option (Except Error Request) :=
  match to_http_client_method parts.method with
  | .error e => some (.error e)
  | .ok m =>
    match parts.headers.mapM
        (fun p => (headerValueToStr p.2).map (fun s => (p.1, s))) with
    | none => none
    | some hs =>
      some (.ok { method := m, uri := parts.uri, headers := hs, body := some body.inner })

/-! ## Auxiliary service clients (src/proxywasm)

Each raw FFI call writes a status code, an out-pointer and an out-length.
The host side of one call is embedded as a HostBuffer: the status, and the
returned buffer, where `none` models a null out-pointer and `some bytes`
models a non-null pointer to `bytes` (ownership of which transfers to the
guest).  The guest wrappers below are functions of that host result. -/

/-- Result a host FFI call hands back: status code plus the out-buffer
(`none` is a null out-pointer). -/
structure HostBuffer where
  status : Nat
  data : Option (List Nat)
deriving DecidableEq, Repr

/-- The key-value error type (src/proxywasm/key_value.rs lines 57-66). -/
inductive KvError where
  | NoSuchStore
  | AccessDenied
  | Other (msg : String)
deriving DecidableEq, Repr

/-- secret::get (src/proxywasm/secret.rs lines 62-82): status 0 yields the
buffer when the pointer is non-null and None when it is null; status 1 is
None; anything else panics (outer none). -/
def secret_get (h : HostBuffer) : Option (Option (List Nat)) :=
  if h.status = 0 then some h.data
  else if h.status = 1 then some none
  else none

/-- Store::get (src/proxywasm/key_value.rs lines 108-134): status 0 yields
the buffer when the pointer is non-null and None when it is null; any other
status is the Other error with the unexpected status message. -/
def store_get (h : HostBuffer) : Except KvError (Option (List Nat)) :=
  if h.status = 0 then .ok h.data
  else .error (.Other ( "unexpected status: " ++ toString h.status))

/-- UTF-8 validity of a byte list, as checked by Rust String::from_utf8:
accepts exactly well-formed UTF-8 (no overlong forms, no surrogates, no
code points above U+10FFFF). -/
def validUtf8 : List Nat → Bool
  | [] => true
  | b :: rest =>
    if b < 128 then validUtf8 rest
    else if 194 ≤ b && b ≤ 223 then
      match rest with
      | c1 :: r => (128 ≤ c1 && c1 ≤ 191) && validUtf8 r
      | _ => false
    else if b = 224 then
      match rest with
      | c1 :: c2 :: r =>
        (160 ≤ c1 && c1 ≤ 191) && (128 ≤ c2 && c2 ≤ 191) && validUtf8 r
      | _ => false
    else if (225 ≤ b && b ≤ 236) || b = 238 || b = 239 then
      match rest with
      | c1 :: c2 :: r =>
        (128 ≤ c1 && c1 ≤ 191) && (128 ≤ c2 && c2 ≤ 191) && validUtf8 r
      | _ => false
    else if b = 237 then
      match rest with
      | c1 :: c2 :: r =>
        (128 ≤ c1 && c1 ≤ 159) && (128 ≤ c2 && c2 ≤ 191) && validUtf8 r
      | _ => false
    else if b = 240 then
      match rest with
      | c1 :: c2 :: c3 :: r =>
        (144 ≤ c1 && c1 ≤ 191) && (128 ≤ c2 && c2 ≤ 191)
          && (128 ≤ c3 && c3 ≤ 191) && validUtf8 r
      | _ => false
    else if 241 ≤ b && b ≤ 243 then
      match rest with
      | c1 :: c2 :: c3 :: r =>
        (128 ≤ c1 && c1 ≤ 191) && (128 ≤ c2 && c2 ≤ 191)
          && (128 ≤ c3 && c3 ≤ 191) && validUtf8 r
      | _ => false
    else if b = 244 then
      match rest with
      | c1 :: c2 :: c3 :: r =>
        (128 ≤ c1 && c1 ≤ 143) && (128 ≤ c2 && c2 ≤ 191)
          && (128 ≤ c3 && c3 ≤ 191) && validUtf8 r
      | _ => false
    else false

/-- dictionary::get (src/proxywasm/dictionary.rs lines 43-64): status 0 with
a non-null pointer decodes the buffer as UTF-8 (String::from_utf8(..).ok(),
identity on the bytes when valid, None when not); a null pointer or status 1
is None; anything else panics (outer none).  The Rust String result is
embedded as its UTF-8 bytes. -/
def dictionary_get (h : HostBuffer) : Option (Option (List Nat)) :=
  if h.status = 0 then
    match h.data with
    | some data => some (if validUtf8 data then some data else none)
    | none => some none
  else if h.status = 1 then some none
  else none

/-- Little-endian byte reassembly of arbitrary width, the bit pattern read by
f64::from_le_bytes (a pure bit reinterpretation). -/
def leBytesToNat : List Nat → Nat
  | [] => 0
  | b :: rest => b + 256 * leBytesToNat rest

/-- The per-item scored-entry decode applied to every wire-list item inside
Store::zrange_by_score (src/proxywasm/key_value.rs lines 159-177) and
Store::zscan (lines 243-261): an item longer than 8 bytes splits into the
leading value and the trailing 8 bytes read as a little-endian f64; an item
of 8 bytes or fewer becomes the empty value with score 0.0.  The f64 score
is embedded as its IEEE-754 bit pattern; 0.0 has bit pattern 0. -/
def decodeScoredItem (v : List Nat) : List Nat × Nat :=
  if v.length > 8 then
    let npos := v.length - 8
    (v.take npos, leBytesToNat (v.drop npos))
  else ([], 0)

/-- The little-endian IEEE-754 encoding of the double 3.14: bit pattern
0x40091EB851EB851F. -/
def leBytes314 : List Nat := [31, 133, 235, 81, 184, 30, 9, 64]

/-! ## Generated entry point (derive/src/lib.rs)

The http attribute macro wraps a user handler into the exported process
function.  The generated code is generic source text: it applies whatever
try_into / try_from conversions the handler types select and whatever
handler the user wrote, so the embedding takes those as parameters. -/

/-- Byte list of an ASCII string (as_bytes of the diagnostic literals; for
ASCII text the character codes are the UTF-8 bytes). -/
def strBytes (s : String) : List Nat := s.toList.map Char.toNat

/-- internal_error of the generated entry point (derive/src/lib.rs lines
148-154): status 500 (StatusCode::INTERNAL_SERVER_ERROR), an empty header
list that is present, and the diagnostic text as the body. -/
def internal_error (body : List Nat) : Response :=
  { status := 500, headers := some [], body := some body }

/-- The generated process function (derive/src/lib.rs lines 162-179):
decode the host request (failure yields the request-decode diagnostic), run
the user handler (an Err yields its display text), encode the handler
response (failure yields the response-encode diagnostic), else return the
encoded response.  `decode` and `encode` are the conversions the generated
code invokes through try_into / try_from, `display` is to_string of the
handler error. -/
def process {α ε β : Type} (decode : Request → Option α)
    (handler : α → Except ε β) (encode : β → Option Response)
    (display : ε → List Nat) (req : Request) : Response :=
  match decode req with
  | none => internal_error (strBytes "http request decode error")
  | some request =>
    match handler request with
    | .error e => internal_error (display e)
    | .ok res =>
      match encode res with
      | none => internal_error (strBytes "http response encode error")
      | some response => response

/-! ## Claims -/

/-- C2: evaluation of the host-response-to-ergonomic-response status
validation at the claimed boundary values.  Status 0 is rejected with
InvalidStatusCode 0 and status 200 and 599 succeed, as claimed; but status
600 is accepted as well, because http::StatusCode::from_u16 validates the
range 100..=999, contradicting the claim and the doc comment of
Error::InvalidStatusCode in src/lib.rs (not in range 100-599). -/
theorem tryFromResponse_status_evaluation :
    tryFromResponse ⟨0, none, none⟩ = .error (.InvalidStatusCode 0)
    ∧ tryFromResponse ⟨200, none, none⟩ = .ok ⟨200, [], Body.empty⟩
    ∧ tryFromResponse ⟨599, none, none⟩ = .ok ⟨599, [], Body.empty⟩
    ∧ tryFromResponse ⟨600, none, none⟩ = .ok ⟨600, [], Body.empty⟩ :=
  ⟨rfl, rfl, rfl, rfl⟩

/-- C3 counterexample: in the older SDK generation the ergonomic-to-host
method conversion rejects OPTIONS (its match has no OPTIONS arm), so OPTIONS
does not convert to host form and back to itself in that transport style. -/
theorem options_unsupported_in_old_generation :
    to_http_client_method_old (methodFromHost .Options)
      = .error (.UnsupportedMethod .OPTIONS) := rfl

/-- C3 amended: in the component-model style the method mapping is a
bijection over all seven supported methods; in the older generation the
ergonomic-to-host direction supports only the six without OPTIONS, and
OPTIONS is rejected like any unsupported method.  In both styles a method
outside the supported set (e.g. CONNECT) yields UnsupportedMethod carrying
the rejected method. -/
theorem method_mapping_bijection_amended :
    (∀ m : Method, to_http_client_method (methodFromHost m) = .ok m)
    ∧ (∀ m : Method, to_http_client_method_old (methodFromHost m)
        = if m = .Options then .error (.UnsupportedMethod .OPTIONS) else .ok m)
    ∧ to_http_client_method .CONNECT = .error (.UnsupportedMethod .CONNECT)
    ∧ to_http_client_method_old .CONNECT = .error (.UnsupportedMethod .CONNECT)
    ∧ to_http_client_method .TRACE = .error (.UnsupportedMethod .TRACE) := by
  refine ⟨fun m => ?_, fun m => ?_, rfl, rfl, rfl⟩
  · cases m <;> rfl
  · cases m <;> rfl

/-- C5: scored-entry decode.  An item whose last 8 bytes are the
little-endian IEEE-754 encoding of 3.14 and whose preceding bytes are the
string abc decodes to that value and the bit pattern of 3.14
(0x40091EB851EB851F); any item of length at most 8 decodes to the empty
value with score 0.0 (bit pattern 0), with no panic (the decode is total). -/
theorem scored_entry_decode (v : List Nat) (h : v.length ≤ 8) :
    decodeScoredItem ([97, 98, 99] ++ leBytes314)
      = ([97, 98, 99], 0x40091EB851EB851F)
    ∧ leBytesToNat leBytes314 = 0x40091EB851EB851F
    ∧ decodeScoredItem v = ([], 0) := by
  refine ⟨by decide, by decide, ?_⟩
  unfold decodeScoredItem
  rw [if_neg (by omega)]

/-- C5 witness: the decode theorem applied at a concrete short item. -/
theorem scored_entry_decode_witness :
    ([1, 2, 3] : List Nat).length ≤ 8 ∧ decodeScoredItem [1, 2, 3] = ([], 0) :=
  ⟨by decide, (scored_entry_decode [1, 2, 3] (by decide)).2.2⟩

/-- C6 counterexample: dictionary::get with host status 0 and a non-null
buffer holding the single byte 255 (not valid UTF-8) returns None, not Some
of the buffer contents, refuting the claim that for dictionary::get a
success status with a non-null pointer always yields Some of the contents. -/
theorem dictionary_nonnull_not_some :
    dictionary_get ⟨0, some [255]⟩ = some none
    ∧ dictionary_get ⟨0, some [255]⟩ ≠ some (some [255]) := by
  refine ⟨by decide, by decide⟩

/-- C6 amended: for secret::get, Store::get and dictionary::get, a host
status of 0 with a null out-pointer yields the absent value None - not an
error and not a present-but-empty buffer - and a non-null pointer yields
Some of the buffer contents, except that dictionary::get additionally
decodes the contents as UTF-8, yielding Some of the bytes when they are
valid UTF-8 and None when they are not. -/
theorem buffer_absence_disambiguation_amended :
    (∀ b : List Nat, secret_get ⟨0, some b⟩ = some (some b))
    ∧ secret_get ⟨0, none⟩ = some none
    ∧ (∀ b : List Nat, store_get ⟨0, some b⟩ = .ok (some b))
    ∧ store_get ⟨0, none⟩ = .ok none
    ∧ dictionary_get ⟨0, none⟩ = some none
    ∧ (∀ b : List Nat, dictionary_get ⟨0, some b⟩
        = some (if validUtf8 b then some b else none)) :=
  ⟨fun _ => rfl, rfl, fun _ => rfl, rfl, rfl, fun _ => rfl⟩

/-- C4: evaluation of the two guest-to-host conversion paths at a request
and a response carrying a header value with the byte 255 (a legal header
value that is not visible ASCII).  Both paths panic (embedded as none)
through the unwrap applied to the to_str result, instead of returning a
typed error. -/
theorem header_conversion_panics :
    responseFromHttp ⟨200, [( "x", [255])], Body.empty⟩ = none
    ∧ requestToHostClient ⟨.GET, "/", [( "x", [255])]⟩ Body.empty = none :=
  ⟨rfl, rfl⟩

/-- to_str returns a view of the very bytes it validated. -/
theorem headerValueToStr_some (v s : List Nat) (h : headerValueToStr v = some s) :
    s = v := by
  unfold headerValueToStr at h
  split at h
  · simpa using h.symm
  · simp at h

/-- The guest-to-host header walk, when it does not panic, returns the
header list unchanged (names kept, values the same bytes). -/
theorem mapM_headerToStr_eq (l hs : List (String × List Nat))
    (h : l.mapM (fun p => (headerValueToStr p.2).map (fun s => (p.1, s))) = some hs) :
    hs = l := by
  induction l generalizing hs with
  | nil =>
    rw [List.mapM_nil] at h
    simpa using h.symm
  | cons x l ih =>
    rw [List.mapM_cons] at h
    cases hx : headerValueToStr x.2 with
    | none => rw [hx] at h; simp at h
    | some s =>
      rw [hx] at h
      cases hl : l.mapM (fun p => (headerValueToStr p.2).map (fun s => (p.1, s))) with
      | none => rw [hl] at h; simp at h
      | some ys =>
        rw [hl] at h
        simp only [Option.map_some', Option.bind_eq_bind, Option.some_bind,
          Option.pure_def, Option.some.injEq] at h
        rw [← h, headerValueToStr_some x.2 s hx, ih ys hl]

/-- C8: headers absent-versus-empty collapse.  Whenever the
ergonomic-to-host response conversion completes, the host record's header
list is absent exactly when the ergonomic response has zero headers, and
otherwise present and equal to the ergonomic header sequence (order and
duplicates preserved); a present-but-empty list is never produced. -/
theorem response_headers_absent_vs_empty (r : HttpResponse) (res : Response)
    (h : responseFromHttp r = some res) :
    res.headers = (if r.headers.isEmpty then none else some r.headers)
    ∧ res.headers ≠ some [] := by
  unfold responseFromHttp at h
  cases hm : r.headers.mapM (fun p => (headerValueToStr p.2).map (fun s => (p.1, s))) with
  | none => rw [hm] at h; simp at h
  | some hs =>
    rw [hm] at h
    simp only [Option.some.injEq] at h
    have hhs := mapM_headerToStr_eq r.headers hs hm
    subst hhs
    rw [← h]
    cases hr : r.headers with
    | nil => exact ⟨rfl, by simp⟩
    | cons p ps =>
      refine ⟨rfl, ?_⟩
      simp [List.isEmpty_cons]

/-- C8 witness: the collapse theorem applied to a response with one header
and to the resulting host record. -/
theorem response_headers_absent_vs_empty_witness :
    responseFromHttp ⟨200, [( "a", [65])], Body.empty⟩
      = some ⟨200, some [( "a", [65])], some []⟩
    ∧ (⟨200, some [( "a", [65])], some []⟩ : Response).headers
      = (if ([( "a", [65])] : List (String × List Nat)).isEmpty then none
         else some [( "a", [65])])
    ∧ (⟨200, some [( "a", [65])], some []⟩ : Response).headers ≠ some [] := by
  refine ⟨rfl, ?_, ?_⟩
  · exact (response_headers_absent_vs_empty ⟨200, [( "a", [65])], Body.empty⟩
      ⟨200, some [( "a", [65])], some []⟩ rfl).1
  · exact (response_headers_absent_vs_empty ⟨200, [( "a", [65])], Body.empty⟩
      ⟨200, some [( "a", [65])], some []⟩ rfl).2

/-- C9: body absence mapping.  When the host-shape request has no body, the
conversion to the ergonomic request produces the explicit empty Body; when
the host-shape response of the outbound client has no body, the conversion
produces Body::default, the same value; that value is the zero-length byte
buffer with the default text/plain content type - never an absent body. -/
theorem absent_body_maps_to_empty_body (req : Request) (res : Response) :
    (∀ out, req.body = none → tryFromRequest req = .ok out → out.body = Body.empty)
    ∧ (∀ hres, res.body = none → translate_http_client_to_response res = .ok hres
        → hres.body = Body.default)
    ∧ Body.empty = Body.default
    ∧ Body.default.inner = []
    ∧ Body.default.content_type = "text/plain; charset=utf-8" := by
  refine ⟨?_, ?_, rfl, rfl, rfl⟩
  · intro out hb h
    unfold tryFromRequest at h
    split at h
    · simp only [Except.ok.injEq] at h
      rw [← h, hb]
      rfl
    · simp at h
  · intro hres hb h
    unfold translate_http_client_to_response at h
    split at h
    · simp only [Except.ok.injEq] at h
      rw [← h, hb]
      rfl
    · simp at h

/-- C9 witness: the body-absence theorem applied to a concrete bodyless host
request and host response. -/
theorem absent_body_maps_to_empty_body_witness :
    tryFromRequest ⟨.Get, "/", [], none⟩
      = .ok ⟨.GET, "/", [], Body.empty⟩
    ∧ (⟨.GET, "/", [], Body.empty⟩ : HttpRequest).body = Body.empty
    ∧ translate_http_client_to_response ⟨200, none, none⟩
      = .ok ⟨200, [], Body.default⟩
    ∧ (⟨200, [], Body.default⟩ : HttpResponse).body = Body.default := by
  refine ⟨rfl, ?_, rfl, ?_⟩
  · exact (absent_body_maps_to_empty_body ⟨.Get, "/", [], none⟩
      ⟨200, none, none⟩).1 ⟨.GET, "/", [], Body.empty⟩ rfl rfl
  · exact (absent_body_maps_to_empty_body ⟨.Get, "/", [], none⟩
      ⟨200, none, none⟩).2.1 ⟨200, [], Body.default⟩ rfl rfl

/-- C10: in the guest-to-host direction the converted body is always
present.  Whenever the outbound request conversion completes it yields body
Some of the ergonomic body bytes (even when empty), and whenever the
response conversion completes it yields body Some of the ergonomic body
bytes; a body of None is never produced, unlike headers. -/
theorem guest_to_host_body_always_present (parts : Parts) (body : Body)
    (hr : HttpResponse) (r : Request) (res : Response)
    (h1 : requestToHostClient parts body = some (.ok r))
    (h2 : responseFromHttp hr = some res) :
    r.body = some body.inner ∧ res.body = some hr.body.inner := by
  constructor
  · unfold requestToHostClient at h1
    cases hm : to_http_client_method parts.method with
    | error e => rw [hm] at h1; simp at h1
    | ok m =>
      rw [hm] at h1
      cases hh : parts.headers.mapM
          (fun p => (headerValueToStr p.2).map (fun s => (p.1, s))) with
      | none => rw [hh] at h1; simp at h1
      | some hs =>
        rw [hh] at h1
        simp only [Option.some.injEq, Except.ok.injEq] at h1
        rw [← h1]
  · unfold responseFromHttp at h2
    cases hm : hr.headers.mapM
        (fun p => (headerValueToStr p.2).map (fun s => (p.1, s))) with
    | none => rw [hm] at h2; simp at h2
    | some hs =>
      rw [hm] at h2
      simp only [Option.some.injEq] at h2
      rw [← h2]

/-- C10 witness: the body-presence theorem applied to a concrete empty-body
outbound request and response. -/
theorem guest_to_host_body_always_present_witness :
    (⟨.Get, "/", [], some []⟩ : Request).body = some Body.empty.inner
    ∧ (⟨204, none, some []⟩ : Response).body
      = some (⟨204, [], Body.empty⟩ : HttpResponse).body.inner :=
  guest_to_host_body_always_present ⟨.GET, "/", []⟩ Body.empty
    ⟨204, [], Body.empty⟩ ⟨.Get, "/", [], some []⟩ ⟨204, none, some []⟩ rfl rfl

/-- C7: entry-point fault isolation of the generated process function.  A
request the decode conversion cannot handle produces status 500 with the
request-decode diagnostic as body; a handler error produces status 500 with
the error's display text as body; a handler response the encode conversion
cannot handle produces status 500 with the response-encode diagnostic; and
a fully successful pass returns the encoded response unchanged. -/
theorem entry_point_fault_isolation {α ε β : Type} (decode : Request → Option α)
    (handler : α → Except ε β) (encode : β → Option Response)
    (display : ε → List Nat) (req : Request) :
    (decode req = none → process decode handler encode display req
      = { status := 500, headers := some [],
          body := some (strBytes "http request decode error") })
    ∧ (∀ a e, decode req = some a → handler a = .error e →
      process decode handler encode display req
        = { status := 500, headers := some [], body := some (display e) })
    ∧ (∀ a b, decode req = some a → handler a = .ok b → encode b = none →
      process decode handler encode display req
        = { status := 500, headers := some [],
            body := some (strBytes "http response encode error") })
    ∧ (∀ a b res, decode req = some a → handler a = .ok b → encode b = some res →
      process decode handler encode display req = res) := by
  refine ⟨?_, ?_, ?_, ?_⟩ <;> intros <;> simp_all [process, internal_error]

/-- C7 witness: the fault-isolation theorem applied to three concrete
entry-point instantiations, one per failure path. -/
theorem entry_point_fault_isolation_witness :
    process (fun _ => (none : Option Nat)) (fun _ => (Except.ok 0 : Except Nat Nat))
        (fun _ => some (internal_error [])) (fun _ => []) ⟨.Get, "/", [], none⟩
      = { status := 500, headers := some [],
          body := some (strBytes "http request decode error") }
    ∧ process (fun _ => some 0) (fun _ => (Except.error 5 : Except Nat Nat))
        (fun _ => some (internal_error [])) (fun e => [e]) ⟨.Get, "/", [], none⟩
      = { status := 500, headers := some [], body := some [5] }
    ∧ process (fun _ => some 0) (fun _ => (Except.ok 0 : Except Nat Nat))
        (fun _ => (none : Option Response)) (fun _ => []) ⟨.Get, "/", [], none⟩
      = { status := 500, headers := some [],
          body := some (strBytes "http response encode error") } := by
  refine ⟨?_, ?_, ?_⟩
  · exact (entry_point_fault_isolation _ _ _ _ _).1 rfl
  · exact (entry_point_fault_isolation _ _ _ _ _).2.1 0 5 rfl rfl
  · exact (entry_point_fault_isolation _ _ _ _ _).2.2.1 0 0 rfl rfl rfl

end FastEdge
